import Mathlib

/-!
A shallow embedding of the todo-routes module of this repository
(`routes/todos.js`, present in the sources): the Express router that
serves `GET /` (paginated, searchable list), `GET /:id`, `POST /`,
`PUT /:id` and `DELETE /:id`, all scoped to the authenticated user.

Conventions of the embedding:
* MongoDB documents become a `List Todo` ("the store"); `_id` and the
  owner's account id become `Nat`.
* Each route handler becomes a pure function from the store and the
  request data to an `Except ApiError` result, paired with the store
  after the call where the route can write.
* `express-validator` chains are embedded in the order the source
  declares them: validators run on the raw value, sanitizers
  (`.trim()`) rewrite it afterwards — exactly as in the source, where
  `notEmpty().trim()` checks emptiness BEFORE trimming.
* The Mongoose `Todo` schema (`models/Todo.js`) is not among the
  provided sources; its validation and defaults are modelled from the
  spec (see `saveValid`).  A Mongoose save/update whose validators fail
  raises, and every route's `catch` turns that into a 500 response,
  embedded as `ApiError.serverError`.
* MongoDB `$regex ... $options: 'i'` interprets the search text as a
  case-insensitive regular expression.  We embed the fragment of that
  regex language needed by the claims: the `.` wildcard, every other
  character matching literally (case-insensitively).  This is faithful
  for patterns built from non-metacharacters and for the `.` wildcard.
-/

/-- Priority enumeration of a todo, from the route validators'
`isIn(['low', 'medium', 'high'])` and the schema enum. -/
inductive Priority where
  | low
  | medium
  | high
deriving DecidableEq, Repr

/-- A todo document.  `id` models Mongo's `_id`, `userId` the owning
account, `dueDate` and `createdAt` are abstract instants (`Nat`). -/
structure Todo where
  id : Nat
  userId : Nat
  title : String
  description : Option String
  priority : Priority
  dueDate : Option Nat
  completed : Bool
  createdAt : Nat
deriving DecidableEq, Repr

/-- The error outcomes the router can produce: 400 `Validation failed`,
404 `Todo not found`, and the catch-all 500 `Server error ...`. -/
inductive ApiError where
  | validationFailed
  | notFound
  | serverError
deriving DecidableEq, Repr

/-- The `pagination` object of the list response. -/
structure Pagination where
  currentPage : Nat
  totalPages : Nat
  totalTodos : Nat
  hasNextPage : Bool
  hasPrevPage : Bool
deriving DecidableEq, Repr

/-- The body of a successful `GET /` response. -/
structure ListResponse where
  todos : List Todo
  pagination : Pagination
deriving DecidableEq, Repr

/-- A query-string parameter as seen by `express-validator`: absent,
present but not an integer at all, or an integer value. -/
inductive QueryParam where
  | absent
  | malformed
  | intVal (n : Int)
deriving DecidableEq, Repr

/-- The `.trim()` sanitizer of `express-validator` (and the Mongoose
`trim` setter): drop whitespace from both ends.  Implemented over the
character list so it is structurally recursive. -/
def strTrim (s : String) : String :=
  String.mk ((((s.data.dropWhile Char.isWhitespace).reverse.dropWhile
    Char.isWhitespace).reverse))

/-- `isIn(['low', 'medium', 'high'])` from the route validators. -/
def isValidPriority (p : String) : Bool :=
  p == "low" || p == "medium" || p == "high"

/-- Decode a priority string that passed `isValidPriority` (Mongoose
cast of the enum string). -/
def parsePriority (p : String) : Priority :=
  if p == "low" then .low else if p == "high" then .high else .medium

/-- The Mongo filter `{ _id: req.params.id, userId: req.user._id }`
used by `GET /:id`, `PUT /:id` and `DELETE /:id`. -/
def ownedBy (uid idn : Nat) (t : Todo) : Bool :=
  t.id == idn && t.userId == uid

/-- Replace the first element satisfying `p` (what `findOneAndUpdate`
does to the matched document). -/
def replaceFirst (p : Todo → Bool) (t' : Todo) : List Todo → List Todo
  | [] => []
  | u :: us => if p u then t' :: us else u :: replaceFirst p t' us

/-- Modelled from the spec: the Mongoose `Todo` schema
(`models/Todo.js`, not among the provided sources).  Per the spec's
data model, `title` is required, non-empty and at most 100 characters,
`description` is optional and at most 500 characters; values reaching a
save have already been trimmed (route sanitizers / the schema's `trim`
setter), so emptiness is checked on the trimmed value.  A failing check
makes the save/update raise, which the routes surface as a 500. -/
def saveValid (t : Todo) : Bool :=
  !(t.title == "") && decide (t.title.length ≤ 100) &&
    (match t.description with
     | some d => decide (d.length ≤ 500)
     | none => true)

/-- Request body of `POST /` — the fields the route reads
(`title`, `description`, `dueDate`, `priority`). -/
structure CreateBody where
  title : Option String := none
  description : Option String := none
  dueDate : Option Nat := none
  priority : Option String := none
deriving DecidableEq, Repr

/-- The `POST /` validator chain:
`title` must be present and non-empty (`notEmpty` runs on the RAW value,
its `.trim()` is a sanitizer applied afterwards), `priority` must be in
the enum when present; then the sanitizers trim `title` and
`description`.  Returns the sanitized body, or `none` on a 400. -/
def validateCreateBody (b : CreateBody) : Option CreateBody :=
  match b.title with
  | none => none
  | some s =>
    if s == "" then none
    else if (match b.priority with
             | some p => isValidPriority p
             | none => true) then
      some { b with title := some (strTrim s),
                    description := b.description.map strTrim }
    else none

/-- `POST /`: validate, build the document (`priority: priority ||
'medium'`, `userId: req.user._id`, schema defaults `completed: false`
and `createdAt: now`), then save.  A schema-validation failure on save
is caught and surfaced as a 500 with the store unchanged. -/
def createTodo (store : List Todo) (uid : Nat) (b : CreateBody)
    (now newId : Nat) : Except ApiError Todo × List Todo :=
  match validateCreateBody b with
  | none => (.error .validationFailed, store)
  | some sb =>
    let t : Todo :=
      { id := newId, userId := uid,
        title := sb.title.getD "",
        description := sb.description,
        dueDate := sb.dueDate,
        priority := match sb.priority with
                    | some p => parsePriority p
                    | none => .medium,
        completed := false,
        createdAt := now }
    if saveValid t then (.ok t, store ++ [t])
    else (.error .serverError, store)

/-- `GET /:id`: `findOne({ _id, userId })`; a missing match — whether
the id does not exist or the document belongs to another user — is the
same 404. -/
def getTodo (store : List Todo) (uid idn : Nat) : Except ApiError Todo :=
  match store.find? (ownedBy uid idn) with
  | some t => .ok t
  | none => .error .notFound

/-- Request body of `PUT /:id`.  The route validates `title`,
`description`, `completed`, `dueDate`, `priority` — but then passes the
WHOLE `req.body` to `findOneAndUpdate`, so any other schema path in the
body is applied too; `userId` is such a path and is modelled here. -/
structure UpdateBody where
  title : Option String := none
  description : Option String := none
  completed : Option Bool := none
  dueDate : Option Nat := none
  priority : Option String := none
  userId : Option Nat := none
deriving DecidableEq, Repr

/-- The `.trim()` sanitizers of the `PUT /:id` chain, applied to the
fields that carry them (`title`, `description`). -/
def sanitizeUpdateBody (b : UpdateBody) : UpdateBody :=
  { b with title := b.title.map strTrim,
           description := b.description.map strTrim }

/-- The `PUT /:id` validator chain: `title`, when present, must be
non-empty (again `notEmpty` before the `.trim()` sanitizer), `priority`,
when present, must be in the enum; sanitizers then trim `title` and
`description`.  Returns the sanitized body, or `none` on a 400. -/
def validateUpdateBody (b : UpdateBody) : Option UpdateBody :=
  if (match b.title with
      | some s => !(s == "")
      | none => true) &&
     (match b.priority with
      | some p => isValidPriority p
      | none => true) then
    some (sanitizeUpdateBody b)
  else none

/-- Apply `findOneAndUpdate`'s update document to the matched todo:
every field present in the (sanitized) body is `$set`, every other
field keeps its stored value.  `userId` is a schema path and is set
like the rest when present in the body. -/
def applyUpdate (t : Todo) (b : UpdateBody) : Todo :=
  { t with
    title := b.title.getD t.title,
    description := match b.description with
                   | some d => some d
                   | none => t.description,
    completed := b.completed.getD t.completed,
    dueDate := match b.dueDate with
               | some d => some d
               | none => t.dueDate,
    priority := match b.priority with
                | some p => parsePriority p
                | none => t.priority,
    userId := b.userId.getD t.userId }

/-- `PUT /:id`: validate, `findOneAndUpdate({ _id, userId }, req.body,
{ new: true, runValidators: true })`.  No match is a 404 with the store
unchanged; a schema-validator failure (`runValidators`) aborts the
update and surfaces as a 500 with the store unchanged; otherwise the
updated document is returned (`new: true`) and replaces the matched
one. -/
def updateTodo (store : List Todo) (uid idn : Nat) (b : UpdateBody) :
    Except ApiError Todo × List Todo :=
  match validateUpdateBody b with
  | none => (.error .validationFailed, store)
  | some sb =>
    match store.find? (ownedBy uid idn) with
    | none => (.error .notFound, store)
    | some t =>
      let t' := applyUpdate t sb
      if saveValid t' then (.ok t', replaceFirst (ownedBy uid idn) t' store)
      else (.error .serverError, store)

/-- `DELETE /:id`: `findOneAndDelete({ _id, userId })`; no match is a
404 with the store unchanged. -/
def deleteTodo (store : List Todo) (uid idn : Nat) :
    Except ApiError Unit × List Todo :=
  match store.find? (ownedBy uid idn) with
  | none => (.error .notFound, store)
  | some _ => (.ok (), store.eraseP (ownedBy uid idn))

/-- Case-insensitive character comparison (the `i` regex option). -/
def charCI (a b : Char) : Bool :=
  a.toLower == b.toLower

/-- Does the pattern match a prefix of the text?  `.` in the pattern is
the regex wildcard; every other pattern character matches itself
case-insensitively.  This is the fragment of `$regex` semantics the
claims need. -/
def patHere : List Char → List Char → Bool
  | [], _ => true
  | _ :: _, [] => false
  | p :: ps, c :: cs => (p == '.' || charCI p c) && patHere ps cs

/-- Does the pattern match anywhere in the text (regex search is
unanchored)? -/
def patSearch (ps : List Char) : List Char → Bool
  | [] => patHere ps []
  | c :: cs => patHere ps (c :: cs) || patSearch ps cs

/-- `{ field: { $regex: pat, $options: 'i' } }` on a string field, in
the embedded regex fragment. -/
def regexFound (pat s : String) : Bool :=
  patSearch pat.data s.data

/-- The `$or` search disjunct of `GET /`: the regex must be found in
the title or in the description; a document without a description does
not match the description branch. -/
def todoSearchMatch (s : String) (t : Todo) : Bool :=
  regexFound s t.title ||
    (match t.description with
     | some d => regexFound s d
     | none => false)

/-- The full Mongo query of `GET /`: always `userId: req.user._id`,
with the `$or` search added (conjoined — top-level Mongo query keys are
ANDed) only when the search string is non-empty. -/
def todoListPred (uid : Nat) (s : String) (t : Todo) : Bool :=
  t.userId == uid && (s == "" || todoSearchMatch s t)

/-- Insert into a list kept sorted by `createdAt` descending. -/
def insertByCreatedAtDesc (t : Todo) : List Todo → List Todo
  | [] => [t]
  | u :: us =>
    if u.createdAt ≤ t.createdAt then t :: u :: us
    else u :: insertByCreatedAtDesc t us

/-- `.sort({ createdAt: -1 })`: newest first. -/
def sortByCreatedAtDesc (l : List Todo) : List Todo :=
  l.foldr insertByCreatedAtDesc []

/-- `Math.ceil(totalTodos / limit)` on naturals. -/
def ceilDiv (n d : Nat) : Nat :=
  (n + d - 1) / d

/-- The `pagination` object the route builds from the page, the limit
and the total count of matching documents. -/
def mkPagination (page limit total : Nat) : Pagination :=
  { currentPage := page,
    totalPages := ceilDiv total limit,
    totalTodos := total,
    hasNextPage := decide (page < ceilDiv total limit),
    hasPrevPage := decide (1 < page) }

/-- `query('page').optional().isInt({ min: 1 })` followed by
`parseInt(req.query.page) || 1`: absent defaults to 1, a non-integer or
an integer below 1 is a validation failure. -/
def validatePage : QueryParam → Option Nat
  | .absent => some 1
  | .malformed => none
  | .intVal n => if 1 ≤ n then some n.toNat else none

/-- `query('limit').optional().isInt({ min: 1, max: 100 })` followed by
`parseInt(req.query.limit) || 10`: absent defaults to 10, a
non-integer or an out-of-range integer is a validation failure. -/
def validateLimit : QueryParam → Option Nat
  | .absent => some 10
  | .malformed => none
  | .intVal n => if 1 ≤ n ∧ n ≤ 100 then some n.toNat else none

/-- `req.query.search || ''` after the `.trim()` sanitizer. -/
def searchOf : Option String → String
  | none => ""
  | some s => strTrim s

/-- The successful `GET /` response for an already-validated page and
limit: filter by the owner-scoped (optionally searched) query, sort by
`createdAt` descending, apply `skip((page-1)*limit)` and
`limit(limit)`, and report pagination from the total matching count. -/
def listOkResp (store : List Todo) (uid page limit : Nat) (s : String) :
    ListResponse :=
  { todos := ((sortByCreatedAtDesc (store.filter (todoListPred uid s))).drop
      ((page - 1) * limit)).take limit,
    pagination := mkPagination page limit
      (store.filter (todoListPred uid s)).length }

/-- `GET /`: validate the query parameters (400 before any store
access on failure), then produce the page. -/
def listTodos (store : List Todo) (uid : Nat) (pageQ limitQ : QueryParam)
    (search : Option String) : Except ApiError ListResponse :=
  match validatePage pageQ, validateLimit limitQ with
  | some page, some limit => .ok (listOkResp store uid page limit (searchOf search))
  | _, _ => .error .validationFailed

/-- Case-insensitive prefix test with NO wildcard: this definition
follows the spec's words ("case-insensitive substring match"), to be
compared with the source's regex behaviour. -/
def subHere : List Char → List Char → Bool
  | [], _ => true
  | _ :: _, [] => false
  | p :: ps, c :: cs => charCI p c && subHere ps cs

/-- Case-insensitive substring search (spec-side comparator). -/
def subSearch (ps : List Char) : List Char → Bool
  | [] => subHere ps []
  | c :: cs => subHere ps (c :: cs) || subSearch ps cs

/-- Spec-side: `needle` occurs in `hay` as a case-insensitive
substring. -/
def specContainsCI (needle hay : String) : Bool :=
  subSearch needle.data hay.data

/-- Spec-side: the todo's title or description contains the search text
as a case-insensitive substring. -/
def specTodoMatchCI (s : String) (t : Todo) : Bool :=
  specContainsCI s t.title ||
    (match t.description with
     | some d => specContainsCI s d
     | none => false)

/-- Regex metacharacters (of the real `$regex` language); the amended
search claim is restricted to patterns avoiding them, on which regex
matching and literal substring matching agree. -/
def isRegexMeta (c : Char) : Bool :=
  c == '.' || c == '*' || c == '+' || c == '?' || c == '(' || c == ')' ||
    c == '[' || c == ']' || c == '\x7b' || c == '\x7d' || c == '|' ||
    c == '^' || c == '$' || c == '\\'

deriving instance DecidableEq for Except

/-! Helper lemmas about the sort and the regex fragment. -/

theorem mem_insertByCreatedAtDesc {x t : Todo} {l : List Todo}
    (h : x ∈ insertByCreatedAtDesc t l) : x = t ∨ x ∈ l := by
  induction l with
  | nil =>
    rw [insertByCreatedAtDesc] at h
    exact Or.inl (List.mem_singleton.mp h)
  | cons u us ih =>
    rw [insertByCreatedAtDesc] at h
    split at h
    · rcases List.mem_cons.mp h with h | h
      · exact Or.inl h
      · exact Or.inr h
    · rcases List.mem_cons.mp h with h | h
      · exact Or.inr (h ▸ List.mem_cons_self u us)
      · rcases ih h with h' | h'
        · exact Or.inl h'
        · exact Or.inr (List.mem_cons_of_mem u h')

theorem mem_sortByCreatedAtDesc {x : Todo} {l : List Todo}
    (h : x ∈ sortByCreatedAtDesc l) : x ∈ l := by
  induction l with
  | nil => simp [sortByCreatedAtDesc] at h
  | cons u us ih =>
    rw [sortByCreatedAtDesc, List.foldr_cons] at h
    rcases mem_insertByCreatedAtDesc h with h | h
    · exact h ▸ List.mem_cons_self u us
    · exact List.mem_cons_of_mem u (ih (by rw [sortByCreatedAtDesc]; exact h))

theorem patHere_eq_subHere {ps : List Char}
    (h : ps.all (fun c => !(isRegexMeta c)) = true) (cs : List Char) :
    patHere ps cs = subHere ps cs := by
  induction ps generalizing cs with
  | nil => cases cs <;> rfl
  | cons p ps ih =>
    rw [List.all_cons, Bool.and_eq_true] at h
    cases cs with
    | nil => rfl
    | cons c cs =>
      have hdot : (p == '.') = false := by
        cases hpc : p == '.'
        · rfl
        · exfalso
          have := h.1
          simp [isRegexMeta, hpc] at this
      simp [patHere, subHere, hdot, ih h.2]

theorem patSearch_eq_subSearch {ps : List Char}
    (h : ps.all (fun c => !(isRegexMeta c)) = true) (cs : List Char) :
    patSearch ps cs = subSearch ps cs := by
  induction cs with
  | nil => simp [patSearch, subSearch, patHere_eq_subHere h]
  | cons c cs ih => simp [patSearch, subSearch, patHere_eq_subHere h, ih]

theorem subSearch_nil (cs : List Char) : subSearch [] cs = true := by
  cases cs <;> rfl

/-- A search string free of regex metacharacters makes the code's
query predicate agree with the spec's case-insensitive substring
predicate. -/
theorem todoListPred_eq_spec {s : String}
    (hmeta : s.data.all (fun c => !(isRegexMeta c)) = true)
    (uid : Nat) (t : Todo) :
    todoListPred uid s t = (t.userId == uid && specTodoMatchCI s t) := by
  by_cases hs : s = ""
  · subst hs
    have h1 : specContainsCI "" t.title = true := subSearch_nil _
    simp [todoListPred, specTodoMatchCI, h1]
  · have hsm : todoSearchMatch s t = specTodoMatchCI s t := by
      simp only [todoSearchMatch, specTodoMatchCI, regexFound, specContainsCI,
        patSearch_eq_subSearch hmeta]
    have hne : (s == "") = false := by simpa using hs
    simp [todoListPred, hne, hsm]

/-- C1: a Todo owned by account `a` is invisible to any other
authenticated account `b`: `get`, `update` (with a body passing
validation) and `delete` all fail with the same `notFound` that a
wholly nonexistent id produces (the ownership hypothesis is vacuous
when no Todo has the id, so this statement covers that case too), and
the store is unchanged by the failed calls. -/
theorem cross_owner_access_not_found (store : List Todo) (a b tid : Nat)
    (bd : UpdateBody) (hab : a ≠ b)
    (hown : ∀ t ∈ store, t.id = tid → t.userId = a)
    (hv : (validateUpdateBody bd).isSome = true) :
    getTodo store b tid = .error .notFound
    ∧ updateTodo store b tid bd = (.error .notFound, store)
    ∧ deleteTodo store b tid = (.error .notFound, store) := by
  have hfind : store.find? (ownedBy b tid) = none := by
    rw [List.find?_eq_none]
    intro t ht
    simp only [ownedBy, Bool.and_eq_true, beq_iff_eq, not_and]
    intro hid hub
    exact hab ((hown t ht hid).symm.trans hub)
  obtain ⟨sb, hsb⟩ := Option.isSome_iff_exists.mp hv
  refine ⟨?_, ?_, ?_⟩
  · simp [getTodo, hfind]
  · simp [updateTodo, hsb, hfind]
  · simp [deleteTodo, hfind]

/-- Witness for C1 at a concrete store: account 2 cannot see, update
or delete account 1's Todo. -/
theorem cross_owner_access_not_found_w :
    getTodo [⟨1, 1, "a", none, .medium, none, false, 0⟩] 2 1
      = .error .notFound
    ∧ updateTodo [⟨1, 1, "a", none, .medium, none, false, 0⟩] 2 1 {}
      = (.error .notFound, [⟨1, 1, "a", none, .medium, none, false, 0⟩])
    ∧ deleteTodo [⟨1, 1, "a", none, .medium, none, false, 0⟩] 2 1
      = (.error .notFound, [⟨1, 1, "a", none, .medium, none, false, 0⟩]) :=
  cross_owner_access_not_found _ 1 2 1 {} (by decide) (by decide) (by decide)

/-- C2 fails on the code: `PUT /:id` passes the whole `req.body` to
`findOneAndUpdate`, and `userId` is a schema path, so an update body
containing `userId` transfers ownership of the Todo.  Here the owner
(account 1) sends `{ userId: 2 }` and the stored Todo's owner becomes
account 2. -/
theorem owner_change_via_update_body :
    updateTodo [⟨1, 1, "a", none, .medium, none, false, 0⟩] 1 1
        { userId := some 2 }
      = (.ok ⟨1, 2, "a", none, .medium, none, false, 0⟩,
         [⟨1, 2, "a", none, .medium, none, false, 0⟩])
    ∧ (2 : Nat) ≠ 1 := by decide

/-- C5 fails on the code: a priority outside the enum does not default
to `medium` — `isIn(['low','medium','high'])` rejects it with a 400
validation error and nothing is persisted. -/
theorem unknown_priority_not_defaulted :
    createTodo [] 1 { title := some "Test", priority := some "urgent" } 0 1
      = (.error .validationFailed, []) := by decide

/-- C5 amended: an omitted priority defaults to `medium` (and
`completed` to `false`); an unknown priority value is rejected with a
validation error and nothing is persisted. -/
theorem priority_default_and_rejection (store : List Todo)
    (uid now idn : Nat) (s : String)
    (h0 : ¬ s = "") (h1 : ¬ strTrim s = "")
    (h2 : (strTrim s).length ≤ 100) :
    (∃ t : Todo, createTodo store uid { title := some s } now idn
        = (.ok t, store ++ [t]) ∧ t.priority = .medium ∧ t.completed = false)
    ∧ ∀ p : String, isValidPriority p = false →
        createTodo store uid { title := some s, priority := some p } now idn
          = (.error .validationFailed, store) := by
  constructor
  · refine ⟨⟨idn, uid, strTrim s, none, .medium, none, false, now⟩, ?_, rfl, rfl⟩
    simp [createTodo, validateCreateBody, h0, saveValid, h1, h2]
  · intro p hp
    simp [createTodo, validateCreateBody, h0, hp]

/-- Witness for C5 amended: `{title: "Test"}` persists with priority
`medium` and `completed = false`. -/
theorem priority_default_and_rejection_w :
    ∃ t : Todo, createTodo [] 3 { title := some "Test" } 0 1
      = (.ok t, [] ++ [t]) ∧ t.priority = .medium ∧ t.completed = false :=
  (priority_default_and_rejection [] 3 0 1 "Test"
    (by decide) (by decide) (by decide)).1

/-- C6: the code slips on whitespace-only titles.  `notEmpty()` runs
before the `.trim()` sanitizer, so `"   "` passes route validation, is
trimmed to `""`, and then fails the schema's required check at save —
surfacing as a 500 server error instead of the spec's `InvalidInput`
(400).  Absent and empty titles are correctly rejected with the 400,
and in every case nothing is persisted. -/
theorem whitespace_title_500 :
    createTodo [] 1 { title := some "   " } 0 1 = (.error .serverError, [])
    ∧ createTodo [] 1 {} 0 1 = (.error .validationFailed, [])
    ∧ createTodo [] 1 { title := some "" } 0 1
      = (.error .validationFailed, []) := by decide

/-- C7: a successful owner update is exactly a field-wise merge: every
field present in the body takes its supplied value (titles and
descriptions as trimmed by the route sanitizers, priorities decoded
from their enum string), every absent field — and the immutable `id`
and `createdAt` — keeps its stored value, and the route returns the
full updated record, which is also what replaces the matched document
in the store. -/
theorem update_partial_fields_frame (store : List Todo) (uid idn : Nat)
    (b : UpdateBody) (t t' : Todo)
    (hfind : store.find? (ownedBy uid idn) = some t)
    (hok : (updateTodo store uid idn b).1 = .ok t') :
    updateTodo store uid idn b
      = (.ok t', replaceFirst (ownedBy uid idn) t' store)
    ∧ t'.id = t.id ∧ t'.createdAt = t.createdAt
    ∧ (b.title = none → t'.title = t.title)
    ∧ (∀ s, b.title = some s → t'.title = strTrim s)
    ∧ (b.description = none → t'.description = t.description)
    ∧ (∀ d, b.description = some d → t'.description = some (strTrim d))
    ∧ (b.completed = none → t'.completed = t.completed)
    ∧ (∀ c, b.completed = some c → t'.completed = c)
    ∧ (b.dueDate = none → t'.dueDate = t.dueDate)
    ∧ (∀ d, b.dueDate = some d → t'.dueDate = some d)
    ∧ (b.priority = none → t'.priority = t.priority)
    ∧ (∀ p, b.priority = some p → t'.priority = parsePriority p)
    ∧ (b.userId = none → t'.userId = t.userId) := by
  cases hval : validateUpdateBody b with
  | none => simp [updateTodo, hval] at hok
  | some sb =>
    have hsb : sb = sanitizeUpdateBody b := by
      rw [validateUpdateBody] at hval
      split at hval
      · exact (Option.some.inj hval).symm
      · exact absurd hval (by simp)
    subst hsb
    by_cases hs : saveValid (applyUpdate t (sanitizeUpdateBody b)) = true
    · have heq : t' = applyUpdate t (sanitizeUpdateBody b) := by
        simp [updateTodo, hval, hfind, hs] at hok
        exact hok.symm
      subst heq
      refine ⟨by simp [updateTodo, hval, hfind, hs], rfl, rfl,
        ?_, ?_, ?_, ?_, ?_, ?_, ?_, ?_, ?_, ?_, ?_⟩
      · intro h; simp [applyUpdate, sanitizeUpdateBody, h]
      · intro s h; simp [applyUpdate, sanitizeUpdateBody, h]
      · intro h; simp [applyUpdate, sanitizeUpdateBody, h]
      · intro d h; simp [applyUpdate, sanitizeUpdateBody, h]
      · intro h; simp [applyUpdate, sanitizeUpdateBody, h]
      · intro c h; simp [applyUpdate, sanitizeUpdateBody, h]
      · intro h; simp [applyUpdate, sanitizeUpdateBody, h]
      · intro d h; simp [applyUpdate, sanitizeUpdateBody, h]
      · intro h; simp [applyUpdate, sanitizeUpdateBody, h]
      · intro p h; simp [applyUpdate, sanitizeUpdateBody, h]
      · intro h; simp [applyUpdate, sanitizeUpdateBody, h]
    · simp [updateTodo, hval, hfind, hs] at hok

/-- Witness for C7, the spec's own example: updating only
`{completed: true}` flips `completed` and leaves title, description,
priority, dueDate, createdAt (and owner) unchanged. -/
theorem update_partial_fields_frame_w :
    updateTodo [⟨1, 1, "Test", some "d", .high, some 9, false, 3⟩] 1 1
        { completed := some true }
      = (.ok ⟨1, 1, "Test", some "d", .high, some 9, true, 3⟩,
         replaceFirst (ownedBy 1 1)
           ⟨1, 1, "Test", some "d", .high, some 9, true, 3⟩
           [⟨1, 1, "Test", some "d", .high, some 9, false, 3⟩]) :=
  (update_partial_fields_frame
    [⟨1, 1, "Test", some "d", .high, some 9, false, 3⟩] 1 1
    { completed := some true }
    ⟨1, 1, "Test", some "d", .high, some 9, false, 3⟩
    ⟨1, 1, "Test", some "d", .high, some 9, true, 3⟩
    (by decide) (by decide)).1

/-- Fifteen todos of account 7 with distinct creation instants — the
spec's pagination scenario. -/
def store15 : List Todo :=
  (List.range 15).map fun i => ⟨i + 1, 7, "T", none, .medium, none, false, i⟩

/-- Item count of a list response (0 on error). -/
def listLen (e : Except ApiError ListResponse) : Nat :=
  match e with
  | .ok r => r.todos.length
  | .error _ => 0

/-- Pagination object of a list response (zeros on error). -/
def listPag (e : Except ApiError ListResponse) : Pagination :=
  match e with
  | .ok r => r.pagination
  | .error _ => ⟨0, 0, 0, false, false⟩

/-- C3: for any store and any valid page (≥ 1) and limit (1..100) the
list succeeds and reports `currentPage = page`,
`totalTodos` = the number of matching documents,
`totalPages = ceil(totalTodos / limit)`, `hasNextPage` exactly when
`currentPage < totalPages`, and `hasPrevPage` exactly when
`currentPage > 1`; in particular 15 todos of one account at pageSize 6
give pages of 6, 6 and 3 items with `totalTodos = 15`,
`totalPages = 3` and the stated flags. -/
theorem pagination_info_correct (store : List Todo) (uid : Nat)
    (q : Option String) (p l : Int)
    (hp : 1 ≤ p) (hl1 : 1 ≤ l) (hl2 : l ≤ 100) :
    (∃ resp, listTodos store uid (.intVal p) (.intVal l) q = .ok resp
      ∧ resp.pagination.currentPage = p.toNat
      ∧ resp.pagination.totalTodos
          = (store.filter (todoListPred uid (searchOf q))).length
      ∧ resp.pagination.totalPages
          = ceilDiv resp.pagination.totalTodos l.toNat
      ∧ (resp.pagination.hasNextPage = true
          ↔ resp.pagination.currentPage < resp.pagination.totalPages)
      ∧ (resp.pagination.hasPrevPage = true
          ↔ 1 < resp.pagination.currentPage))
    ∧ (listLen (listTodos store15 7 (.intVal 1) (.intVal 6) none) = 6
      ∧ listLen (listTodos store15 7 (.intVal 2) (.intVal 6) none) = 6
      ∧ listLen (listTodos store15 7 (.intVal 3) (.intVal 6) none) = 3
      ∧ listPag (listTodos store15 7 (.intVal 1) (.intVal 6) none)
          = ⟨1, 3, 15, true, false⟩
      ∧ listPag (listTodos store15 7 (.intVal 2) (.intVal 6) none)
          = ⟨2, 3, 15, true, true⟩
      ∧ listPag (listTodos store15 7 (.intVal 3) (.intVal 6) none)
          = ⟨3, 3, 15, false, true⟩) := by
  constructor
  · have hp' : validatePage (.intVal p) = some p.toNat := by
      simp [validatePage, hp]
    have hl' : validateLimit (.intVal l) = some l.toNat := by
      simp [validateLimit, hl1, hl2]
    refine ⟨listOkResp store uid p.toNat l.toNat (searchOf q),
      by simp [listTodos, hp', hl'], rfl, rfl, rfl, ?_, ?_⟩
    · simp [listOkResp, mkPagination]
    · simp [listOkResp, mkPagination]
  · exact ⟨by decide, by decide, by decide, by decide, by decide, by decide⟩

/-- Witness for C3: page 2 of the 15-todo scenario has 6 items. -/
theorem pagination_info_correct_w :
    listLen (listTodos store15 7 (.intVal 2) (.intVal 6) none) = 6 :=
  (pagination_info_correct [] 0 none 1 1 (by decide) (by decide)
    (by decide)).2.2.1

/-- C9: every item returned by `GET /` belongs to the requester — the
owner filter `userId: req.user._id` is a top-level key of the Mongo
query, so a search can only narrow the requester's own set. -/
theorem list_scoped_to_owner (store : List Todo) (uid : Nat)
    (pq lq : QueryParam) (q : Option String) (resp : ListResponse)
    (h : listTodos store uid pq lq q = .ok resp) :
    resp.todos.all (fun t => t.userId == uid) = true := by
  rw [List.all_eq_true]
  intro t ht
  cases hp : validatePage pq with
  | none => simp [listTodos, hp] at h
  | some page =>
    cases hl : validateLimit lq with
    | none => simp [listTodos, hp, hl] at h
    | some limit =>
      simp only [listTodos, hp, hl] at h
      have hresp := Except.ok.inj h
      subst hresp
      have h1 := List.mem_of_mem_take ht
      have h2 := List.mem_of_mem_drop h1
      have h3 := mem_sortByCreatedAtDesc h2
      have h4 := (List.mem_filter.mp h3).2
      rw [todoListPred, Bool.and_eq_true] at h4
      exact h4.1

/-- Witness for C9 at a concrete store and response. -/
theorem list_scoped_to_owner_w :
    (ListResponse.mk [⟨1, 1, "a", none, .medium, none, false, 0⟩]
      ⟨1, 1, 1, false, false⟩).todos.all (fun t => t.userId == 1) = true :=
  list_scoped_to_owner [⟨1, 1, "a", none, .medium, none, false, 0⟩] 1
    .absent .absent none _ (by decide)

/-- The list response the SPEC's words prescribe for a search: filter
the requester's todos by case-insensitive SUBSTRING containment in
title or description, then sort and paginate as the route does. -/
def specListResp (store : List Todo) (uid page limit : Nat)
    (pat : String) : ListResponse :=
  { todos := ((sortByCreatedAtDesc (store.filter (fun t =>
      t.userId == uid && specTodoMatchCI pat t))).drop
      ((page - 1) * limit)).take limit,
    pagination := mkPagination page limit
      (store.filter (fun t =>
        t.userId == uid && specTodoMatchCI pat t)).length }

/-- C4 fails on the code: the search text is passed to `$regex`
unescaped, so it is a regular expression, not a literal substring.
Searching `"."` returns a todo titled `"ab"` (the wildcard matches any
character) although `"."` is not a substring of `"ab"` — and the todo
has no description. -/
theorem search_is_regex_not_substring :
    listTodos [⟨1, 1, "ab", none, .medium, none, false, 0⟩] 1
        .absent .absent (some ".")
      = .ok ⟨[⟨1, 1, "ab", none, .medium, none, false, 0⟩],
             ⟨1, 1, 1, false, false⟩⟩
    ∧ specContainsCI "." "ab" = false := by decide

/-- C4 amended: for a (trimmed) search text containing no regex
metacharacter, the route's `$regex` search IS the spec's
case-insensitive substring filter over the requester's todos: the full
response equals the substring-semantics response. -/
theorem search_literal_ci_substring (store : List Todo) (uid : Nat)
    (p l : Int) (pat : String)
    (hp : 1 ≤ p) (hl1 : 1 ≤ l) (hl2 : l ≤ 100)
    (hmeta : (strTrim pat).data.all (fun c => !(isRegexMeta c)) = true) :
    listTodos store uid (.intVal p) (.intVal l) (some pat)
      = .ok (specListResp store uid p.toNat l.toNat (strTrim pat)) := by
  have hp' : validatePage (.intVal p) = some p.toNat := by
    simp [validatePage, hp]
  have hl' : validateLimit (.intVal l) = some l.toNat := by
    simp [validateLimit, hl1, hl2]
  have hfil : store.filter (todoListPred uid (strTrim pat))
      = store.filter (fun t => t.userId == uid
          && specTodoMatchCI (strTrim pat) t) :=
    List.filter_congr (fun t _ => todoListPred_eq_spec hmeta uid t)
  simp [listTodos, hp', hl', listOkResp, specListResp, searchOf, hfil]

/-- Witness for C4 amended, the spec's own example: among "Buy milk"
and "Call mom", searching "milk" returns exactly the first. -/
theorem search_literal_ci_substring_w :
    listTodos [⟨1, 7, "Buy milk", none, .medium, none, false, 1⟩,
               ⟨2, 7, "Call mom", none, .medium, none, false, 0⟩] 7
        (.intVal 1) (.intVal 10) (some "milk")
      = .ok (specListResp
          [⟨1, 7, "Buy milk", none, .medium, none, false, 1⟩,
           ⟨2, 7, "Call mom", none, .medium, none, false, 0⟩]
          7 1 10 (strTrim "milk"))
    ∧ specListResp
          [⟨1, 7, "Buy milk", none, .medium, none, false, 1⟩,
           ⟨2, 7, "Call mom", none, .medium, none, false, 0⟩]
          7 1 10 (strTrim "milk")
        = ⟨[⟨1, 7, "Buy milk", none, .medium, none, false, 1⟩],
           ⟨1, 1, 1, false, false⟩⟩ :=
  ⟨search_literal_ci_substring
    [⟨1, 7, "Buy milk", none, .medium, none, false, 1⟩,
     ⟨2, 7, "Call mom", none, .medium, none, false, 0⟩] 7 1 10 "milk"
    (by decide) (by decide) (by decide) (by decide), by decide⟩

/-- A 101-character title, for the oversize-field claims. -/
def longA : String := String.mk (List.replicate 101 'a')

/-- A 501-character description, for the oversize-field claims. -/
def longB : String := String.mk (List.replicate 501 'b')

/-- C8 fails as stated: the routes have NO length validators, so an
over-long title is not rejected with the 400 `InvalidInput`; it passes
route validation and fails only at the (spec-modelled) schema on save,
surfacing as a 500 server error — a different error, though still
nothing is persisted. -/
theorem oversize_title_not_invalid_input :
    createTodo [] 1 { title := some longA } 0 1 = (.error .serverError, [])
    ∧ ApiError.serverError ≠ ApiError.validationFailed := by decide

/-- C8 amended: a title longer than 100 characters or a description
longer than 500 characters makes `create` and owner `update` fail —
with a 500 server error from the persistence layer rather than
`InvalidInput` — and nothing is persisted. -/
theorem oversize_fields_rejected_at_save (store : List Todo)
    (uid now idn : Nat) (s : String) (hs : ¬ s = "") :
    (100 < (strTrim s).length →
      createTodo store uid { title := some s } now idn
        = (.error .serverError, store))
    ∧ (∀ d : String, 500 < (strTrim d).length →
      createTodo store uid { title := some s, description := some d } now idn
        = (.error .serverError, store))
    ∧ (100 < (strTrim s).length →
      ∀ t : Todo, store.find? (ownedBy uid idn) = some t →
        updateTodo store uid idn { title := some s }
          = (.error .serverError, store))
    ∧ (∀ d : String, 500 < (strTrim d).length →
      ∀ t : Todo, store.find? (ownedBy uid idn) = some t →
        updateTodo store uid idn { description := some d }
          = (.error .serverError, store)) := by
  refine ⟨?_, ?_, ?_, ?_⟩
  · intro h
    have hn : ¬ (strTrim s).length ≤ 100 := by omega
    simp [createTodo, validateCreateBody, hs, saveValid, hn]
  · intro d h
    have hn : ¬ (strTrim d).length ≤ 500 := by omega
    simp [createTodo, validateCreateBody, hs, saveValid, hn]
  · intro h t hfind
    have hn : ¬ (strTrim s).length ≤ 100 := by omega
    simp [updateTodo, validateUpdateBody, sanitizeUpdateBody, hs, hfind,
      saveValid, applyUpdate, hn]
  · intro d h t hfind
    have hn : ¬ (strTrim d).length ≤ 500 := by omega
    simp [updateTodo, validateUpdateBody, sanitizeUpdateBody, hs, hfind,
      saveValid, applyUpdate, hn]

set_option maxRecDepth 4096 in
/-- Witness for C8 amended at concrete oversize fields. -/
theorem oversize_fields_rejected_at_save_w :
    (100 : Nat) < (strTrim longA).length
    ∧ createTodo [] 5 { title := some longA } 0 2 = (.error .serverError, [])
    ∧ createTodo [] 5 { title := some "T", description := some longB } 0 2
        = (.error .serverError, []) :=
  ⟨by decide,
   (oversize_fields_rejected_at_save [] 5 0 2 longA (by decide)).1 (by decide),
   (oversize_fields_rejected_at_save [] 5 0 2 "T" (by decide)).2.1 longB
     (by decide)⟩

/-- C10: a supplied `page` that is no integer ≥ 1, or a supplied
`limit` that is no integer in [1, 100], fails with the 400 validation
error — out-of-range values are rejected, never clamped — the result
then does not depend on the store at all, and the defaults (page 1,
limit 10) take effect exactly when the parameter is absent. -/
theorem list_param_validation_strict (store store2 : List Todo)
    (uid : Nat) (q : Option String) (pq lq : QueryParam) (p l : Int) :
    (p < 1 → listTodos store uid (.intVal p) lq q
      = .error .validationFailed)
    ∧ listTodos store uid .malformed lq q = .error .validationFailed
    ∧ ((l < 1 ∨ 100 < l) → listTodos store uid pq (.intVal l) q
      = .error .validationFailed)
    ∧ listTodos store uid pq .malformed q = .error .validationFailed
    ∧ listTodos store uid .absent .absent q
      = listTodos store uid (.intVal 1) (.intVal 10) q
    ∧ (p < 1 → listTodos store uid (.intVal p) lq q
      = listTodos store2 uid (.intVal p) lq q) := by
  have hpbad : p < 1 → validatePage (.intVal p) = none := by
    intro h
    simp only [validatePage, ite_eq_right_iff]
    omega
  have hlbad : (l < 1 ∨ 100 < l) → validateLimit (.intVal l) = none := by
    intro h
    simp only [validateLimit, ite_eq_right_iff]
    omega
  refine ⟨?_, ?_, ?_, ?_, ?_, ?_⟩
  · intro h
    simp [listTodos, hpbad h]
  · simp [listTodos, validatePage]
  · intro h
    cases hp2 : validatePage pq with
    | none => simp [listTodos, hp2]
    | some pg => simp [listTodos, hp2, hlbad h]
  · cases hp2 : validatePage pq with
    | none => simp [listTodos, hp2]
    | some pg => simp [listTodos, hp2, validateLimit]
  · rfl
  · intro h
    simp [listTodos, hpbad h]

/-- Witness for C10: page 0 and limit 101 are rejected, not clamped. -/
theorem list_param_validation_strict_w :
    listTodos [] 0 (.intVal 0) .absent none = .error .validationFailed
    ∧ listTodos [] 0 .absent (.intVal 101) none
      = .error .validationFailed :=
  ⟨(list_param_validation_strict [] [] 0 none .absent .absent 0 101).1
     (by decide),
   (list_param_validation_strict [] [] 0 none .absent .absent 0 101).2.2.1
     (Or.inr (by decide))⟩
